import Mathlib

/-!
Verification development for the book-series discounting cart
(`discounting_book_series.py`).

Modelling conventions:
* ISBNs and titles are `String`, prices are `ℚ` (the source uses Python
  floats; all claims are about the exact arithmetic of the algorithm).
* A Python attribute that may be unset is an `Option` field; reading an
  unset attribute (an `AttributeError`) and raising are modelled with
  `Except String`.
* A Python argument that may fail the source's `type(x) == list` check is
  an `Option (List _)`: `none` stands for any non-list argument.
* Python `set` values are modelled as deduplicated lists; every observable
  the theorems mention (totals, counts, multisets, diagnostic lists of a
  single element) is independent of the arbitrary iteration order of a
  Python set.
-/

/-- The `Book` class: ISBN (identity for grouping), title, price. -/
structure Book where
  isbn : String
  title : String
  price : ℚ
deriving DecidableEq

/-- The `Pricing` class holds the series of books it applies to. -/
structure Pricing where
  series_of_books : List Book
deriving DecidableEq

/-- `Pricing.__init__`: a non-list argument (`none`) is silently coerced to
the empty series. -/
def Pricing.make (series_of_books : Option (List Book)) : Pricing :=
  { series_of_books := series_of_books.getD [] }

/-- `Pricing.get_discount_percentage`, list branch: keyed on the exact
length of the grouping.  (The source's non-list branch dies with an
`UnboundLocalError` and is unreachable from `calculate_total_price`,
which always passes a list.) -/
def Pricing.get_discount_percentage (_p : Pricing) (set_of_books : List Book) : ℕ :=
  if set_of_books.length = 5 then 25
  else if set_of_books.length = 4 then 20
  else if set_of_books.length = 3 then 10
  else if set_of_books.length = 2 then 5
  else 0

/-- The `CustomerShoppingCart` state.  `series_of_books = none` and
`pricing = none` model the attributes being unset (never assigned). -/
structure CustomerShoppingCart where
  books_in_cart : List Book
  dict_books_in_cart : List (String × Book)
  series_of_books : Option (List Book)
  pricing : Option Pricing
deriving DecidableEq

/-- Python `dict` lookup for a dict built by successive assignments in list
order: the last assignment to a key wins. -/
def dict_get : List (String × Book) → String → Option Book
  | [], _ => none
  | (k, v) :: rest, isbn =>
    match dict_get rest isbn with
    | some b => some b
    | none => if k = isbn then some v else none

/-- `CustomerShoppingCart.__init__`: a non-list (`none`) or empty argument
raises the bare `Exception('Shopping Cart is Empty!')`; otherwise the cart
stores the list and builds the ISBN → Book dict (last entry wins). -/
def CustomerShoppingCart.make (books_in_cart : Option (List Book)) :
    Except String CustomerShoppingCart :=
  match books_in_cart with
  | some books =>
    if books.length ≠ 0 then
      .ok { books_in_cart := books
            dict_books_in_cart := books.map (fun b => (b.isbn, b))
            series_of_books := none
            pricing := none }
    else .error ("Shopping Cart is Empty!")
  | none => .error ("Shopping Cart is Empty!")

/-- `set_series_of_books`: a list is stored and instantiates the pricing
model; a non-list argument silently sets the series to `[]` and leaves
`pricing` untouched. -/
def CustomerShoppingCart.set_series_of_books (c : CustomerShoppingCart)
    (series_of_books : Option (List Book)) : CustomerShoppingCart :=
  match series_of_books with
  | some l => { c with series_of_books := some l, pricing := some (Pricing.make (some l)) }
  | none => { c with series_of_books := some [] }

/-- `subtract_list`: `Counter(larger) - Counter(smaller)`, listed back out
element by element (each distinct value of the larger list, repeated
`count_larger - count_smaller` times). -/
def CustomerShoppingCart.subtract_list (larger_list smaller_list : List String) :
    List String :=
  (larger_list.dedup.map
    (fun x => List.replicate (larger_list.count x - smaller_list.count x) x)).flatten

/-- `get_object_for_isbn`: dict lookup (`none` models a `KeyError`). -/
def CustomerShoppingCart.get_object_for_isbn (c : CustomerShoppingCart)
    (isbn : String) : Option Book :=
  dict_get c.dict_books_in_cart isbn

/-- `calculate_discount`: needs `self.pricing` to be set (its
`isinstance` test reads the attribute, so an unset attribute raises);
returns the dollar discount and the percentage. -/
def CustomerShoppingCart.calculate_discount (c : CustomerShoppingCart)
    (set_of_books : List Book) : Except String (ℚ × ℕ) :=
  match c.pricing with
  | some pricing =>
    let percentage_discount := pricing.get_discount_percentage set_of_books
    let price_of_books : ℚ := (set_of_books.map Book.price).sum
    .ok (price_of_books * (percentage_discount : ℚ) / 100, percentage_discount)
  | none => .error ("AttributeError: pricing")

/-- Look up every ISBN of a grouping in the cart's dict; `none` models the
`KeyError` that a missing key would raise. -/
def lookup_books (c : CustomerShoppingCart) : List String → Option (List Book)
  | [] => some []
  | i :: rest =>
    match c.get_object_for_isbn i, lookup_books c rest with
    | some b, some bs => some (b :: bs)
    | _, _ => none

/-- The `max_count_of_a_book` loop: the largest multiplicity of any single
ISBN in the cart's ISBN list. -/
def max_count_of_a_book (isbns : List String) : ℕ :=
  isbns.foldl (fun m x => max m (isbns.count x)) 0

/-- One round's grouping, line 267 of the source:
`set(isbn_series_of_books).intersection(set(isbn_books_in_cart))` — the
distinct series ISBNs currently available in the cart list. -/
def extract_grouping (isbn_series isbn_cart : List String) : List String :=
  isbn_series.dedup.filter (fun x => decide (x ∈ isbn_cart))

/-- The partition loop (source lines 266-271): `max_count` rounds, each
taking one grouping and removing one copy of each grouped ISBN. -/
def split_rounds (isbn_series : List String) : ℕ → List String → List (List String)
  | 0, _ => []
  | n + 1, isbn_cart =>
    let extracted := extract_grouping isbn_series isbn_cart
    extracted ::
      split_rounds isbn_series n (CustomerShoppingCart.subtract_list isbn_cart extracted)

/-- `set(a).symmetric_difference(set(b))` as a deduplicated list. -/
def symmetric_difference (a b : List String) : List String :=
  a.dedup.filter (fun x => decide (x ∉ b)) ++ b.dedup.filter (fun x => decide (x ∉ a))

/-- The pricing loop over the groupings (source lines 276-286): for each
grouping, add its books' prices and subtract the discount. -/
def price_groupings (c : CustomerShoppingCart) :
    List (List String) → ℚ → Except String ℚ
  | [], total_price => .ok total_price
  | set_of_isbns :: rest, total_price =>
    match lookup_books c set_of_isbns with
    | none => .error ("KeyError")
    | some set_of_books =>
      match c.calculate_discount set_of_books with
      | .error e => .error e
      | .ok (discount_in_dollars, _pct) =>
        price_groupings c rest
          (total_price + (set_of_books.map Book.price).sum - discount_in_dollars)

/-- `calculate_total_price`.  Returns the total, the list of
`(title, isbn)` diagnostics printed for unknown books, and the state of
the cart after the call (the unknown-book branch removes one copy of each
unknown book's representative from `books_in_cart`; the dict is never
touched, and the partition uses the ISBN list taken before the removal,
exactly as the source's local variable does). -/
def CustomerShoppingCart.calculate_total_price (c : CustomerShoppingCart) :
    Except String (ℚ × List (String × String) × CustomerShoppingCart) :=
  match c.series_of_books with
  | none => .error ("AttributeError: series_of_books")
  | some series =>
    if series.length ≠ 0 then
      let isbn_series_of_books := series.map Book.isbn
      let isbn_books_in_cart := c.books_in_cart.map Book.isbn
      let mc := max_count_of_a_book isbn_books_in_cart
      let unknown_isbn_list := symmetric_difference isbn_books_in_cart isbn_series_of_books
      let split_books_isbn_to_discount :=
        split_rounds isbn_series_of_books mc isbn_books_in_cart
      if ∀ x ∈ unknown_isbn_list, x ∈ isbn_books_in_cart then
        match lookup_books c unknown_isbn_list with
        | none => .error ("KeyError")
        | some unknown_book_list =>
          match price_groupings c split_books_isbn_to_discount 0 with
          | .error e => .error e
          | .ok total_price =>
            .ok (total_price,
                 unknown_book_list.map (fun b => (b.title, b.isbn)),
                 { c with books_in_cart :=
                     unknown_book_list.foldl List.erase c.books_in_cart })
      else
        match price_groupings c split_books_isbn_to_discount 0 with
        | .error e => .error e
        | .ok total_price => .ok (total_price, [], c)
    else
      .ok ((c.books_in_cart.map Book.price).sum, [], c)

/-! Demo data from the source's `__main__` block. -/

/-- Demo book 1 (price 8.0). -/
def book1 : Book := { isbn := "ISBN-111", title := "Young Wizard - Series 1", price := 8 }

/-- Demo book 2 (price 8.0). -/
def book2 : Book := { isbn := "ISBN-222", title := "Young Wizard - Series 2", price := 8 }

/-- Demo book 3 (price 8.0). -/
def book3 : Book := { isbn := "ISBN-333", title := "Young Wizard - Series 3", price := 8 }

/-- Demo book 4 (price 8.0). -/
def book4 : Book := { isbn := "ISBN-444", title := "Young Wizard - Series 4", price := 8 }

/-- Demo book 5 (price 8.0). -/
def book5 : Book := { isbn := "ISBN-555", title := "Young Wizard - Series 5", price := 8 }

/-- Demo book 9, not part of the series. -/
def book9 : Book := { isbn := "ISBN-UNKNOWN", title := "XXXXXXXXX", price := 0 }

/-- The demo five-book series. -/
def series_demo : List Book := [book1, book2, book3, book4, book5]

/-- The scenario-B cart contents. -/
def cartB_books : List Book := [book1, book2, book3, book4, book5, book1, book3, book5]

/-- A cart holding one copy of `book1`, as built by the constructor. -/
def cart_one : CustomerShoppingCart :=
  { books_in_cart := [book1]
    dict_books_in_cart := [(book1.isbn, book1)]
    series_of_books := none
    pricing := none }

/-- C1: for the cart `[book1,book2,book3,book4,book5,book1,book3,book5]`
(8 items, each priced 8.00) with the full 5-book series,
`calculate_total_price` partitions into a grouping of the 5 distinct ISBNs
(subtotal 40, 25% off) and a grouping of 3 distinct ISBNs (subtotal 24,
10% off) and returns exactly 51.60 = 258/5, with no diagnostics. -/
theorem claim_C1_scenarioB :
    split_rounds (series_demo.map Book.isbn)
        (max_count_of_a_book (cartB_books.map Book.isbn)) (cartB_books.map Book.isbn) =
      [["ISBN-111", "ISBN-222", "ISBN-333", "ISBN-444", "ISBN-555"],
       ["ISBN-111", "ISBN-333", "ISBN-555"]] ∧
    ([book1, book2, book3, book4, book5].map Book.price).sum = 40 ∧
    ([book1, book3, book5].map Book.price).sum = 24 ∧
    (Pricing.make (some series_demo)).get_discount_percentage
        [book1, book2, book3, book4, book5] = 25 ∧
    (Pricing.make (some series_demo)).get_discount_percentage [book1, book3, book5] = 10 ∧
    (CustomerShoppingCart.make (some cartB_books)).map
        (fun c => ((c.set_series_of_books (some series_demo)).calculate_total_price).map
          (fun r => (r.1, r.2.1))) = .ok (.ok (258 / 5, [])) := by
  refine ⟨?_, ?_, ?_, ?_, ?_, ?_⟩ <;> with_unfolding_all rfl

/-- C4: the discount-percentage function is total over all group sizes and
returns exactly 5, 10, 20, 25 for group sizes 2, 3, 4, 5, and 0 for every
other size (0, 1, and every size 6 or greater). -/
theorem claim_C4_discount_table (p : Pricing) (set_of_books : List Book) :
    p.get_discount_percentage set_of_books =
      if set_of_books.length = 2 then 5
      else if set_of_books.length = 3 then 10
      else if set_of_books.length = 4 then 20
      else if set_of_books.length = 5 then 25
      else 0 := by
  unfold Pricing.get_discount_percentage
  split_ifs <;> omega

/-- C6: constructing a cart from an empty item sequence fails with the
cart-is-empty exception and produces no cart instance; construction from
any non-empty list succeeds. -/
theorem claim_C6_empty_cart :
    CustomerShoppingCart.make (some []) = .error ("Shopping Cart is Empty!") ∧
    ∀ (b : Book) (bs : List Book),
      ∃ c, CustomerShoppingCart.make (some (b :: bs)) = .ok c := by
  refine ⟨rfl, fun b bs =>
    ⟨{ books_in_cart := b :: bs
       dict_books_in_cart := (b :: bs).map (fun bk => (bk.isbn, bk))
       series_of_books := none
       pricing := none }, ?_⟩⟩
  simp [CustomerShoppingCart.make]

/-- C10: a non-list constructor argument (modelled by `none`) is rejected
with the very same exception as an empty list, so it is indistinguishable
from an empty cart at the public interface. -/
theorem claim_C10_nonlist_constructor :
    CustomerShoppingCart.make none = .error ("Shopping Cart is Empty!") ∧
    CustomerShoppingCart.make none = CustomerShoppingCart.make (some []) :=
  ⟨rfl, rfl⟩

/-- C2 counterexample: on the non-empty cart `[book1]` on which
`set_series_of_books` was never called, `calculate_total_price` does not
return the undiscounted sum — it raises (reads the unset
`series_of_books` attribute), contradicting the claim's "was never called
at all" case. -/
theorem claim_C2_counterexample :
    (CustomerShoppingCart.make (some [book1])).map
        (fun c => c.calculate_total_price) =
      .ok (.error ("AttributeError: series_of_books")) := by
  with_unfolding_all rfl

/-- C2 amended: for every non-empty cart on which `set_series_of_books`
was called with an empty sequence, `calculate_total_price` returns exactly
the sum of the unit prices of all items, with no diagnostic, no error and
no state change.  (The "never called at all" case instead raises.) -/
theorem claim_C2_amended (books : List Book) (c : CustomerShoppingCart)
    (h : CustomerShoppingCart.make (some books) = .ok c) :
    (c.set_series_of_books (some [])).calculate_total_price =
      .ok ((books.map Book.price).sum, [], c.set_series_of_books (some [])) := by
  cases books with
  | nil => simp [CustomerShoppingCart.make] at h
  | cons b bs =>
    simp [CustomerShoppingCart.make] at h
    subst h
    rfl

/-- Witness for C2 amended at the concrete cart `[book1]`. -/
theorem claim_C2_amended_witness :
    (cart_one.set_series_of_books (some [])).calculate_total_price =
      .ok ((([book1] : List Book).map Book.price).sum, [],
           cart_one.set_series_of_books (some [])) :=
  claim_C2_amended [book1] cart_one (by rfl)

/-- C9: a non-sequence argument to `set_series_of_books` (modelled by
`none`) is silently coerced to an empty series, and a subsequent
`calculate_total_price` returns the undiscounted sum of unit prices of all
cart items without raising. -/
theorem claim_C9_nonlist_series (books : List Book) (c : CustomerShoppingCart)
    (h : CustomerShoppingCart.make (some books) = .ok c) :
    (c.set_series_of_books none).series_of_books = some [] ∧
    (c.set_series_of_books none).calculate_total_price =
      .ok ((books.map Book.price).sum, [], c.set_series_of_books none) := by
  cases books with
  | nil => simp [CustomerShoppingCart.make] at h
  | cons b bs =>
    simp [CustomerShoppingCart.make] at h
    subst h
    exact ⟨rfl, rfl⟩

/-- Witness for C9 at the concrete cart `[book1]`. -/
theorem claim_C9_witness :
    (cart_one.set_series_of_books none).series_of_books = some [] ∧
    (cart_one.set_series_of_books none).calculate_total_price =
      .ok ((([book1] : List Book).map Book.price).sum, [],
           cart_one.set_series_of_books none) :=
  claim_C9_nonlist_series [book1] cart_one (by rfl)

/-- C7 counterexample: for the cart `[book1, book9]` with series
`[book1]`, `calculate_total_price` removes `book9` from the stored cart:
the stored contents after the call are `[book1]`, not the original
multiset. -/
theorem claim_C7_counterexample :
    (CustomerShoppingCart.make (some [book1, book9])).map
        (fun c => ((c.set_series_of_books (some [book1])).calculate_total_price).map
          (fun r => r.2.2.books_in_cart)) = .ok (.ok [book1]) ∧
    ([book1] : List Book) ≠ [book1, book9] := by
  refine ⟨by with_unfolding_all rfl, by simp⟩

/-- C3 counterexample: the cart `[book1, book9]` contains exactly one item
(`book9`) whose id is absent from the non-empty series `[book1, book2]`,
yet `calculate_total_price` emits no diagnostic at all (the symmetric
difference also contains `ISBN-222`, which is not in the cart, so the
subset guard fails and the removal/diagnostic branch is skipped); the
claim's "exactly one diagnostic" is false here.  The returned total 8
is `book1`'s price alone. -/
theorem claim_C3_counterexample :
    book9 ∈ [book1, book9] ∧ book9.isbn ∉ ([book1, book2].map Book.isbn) ∧
    (CustomerShoppingCart.make (some [book1, book9])).map
        (fun c => ((c.set_series_of_books (some [book1, book2])).calculate_total_price).map
          (fun r => (r.1, r.2.1))) = .ok (.ok (8, [])) := by
  refine ⟨by simp, by simp [book9, book1, book2], by with_unfolding_all rfl⟩

/-! Counting lemmas about `subtract_list`, `extract_grouping` and
`split_rounds`. -/

theorem count_flatten_replicate (f : String → ℕ) (xs : List String) (hnd : xs.Nodup)
    (x : String) :
    ((xs.map (fun y => List.replicate (f y) y)).flatten).count x =
      if x ∈ xs then f x else 0 := by
  induction xs with
  | nil => simp
  | cons y ys ih =>
    rcases List.nodup_cons.mp hnd with ⟨hy, hys⟩
    rw [List.map_cons, List.flatten_cons, List.count_append, List.count_replicate, ih hys]
    by_cases hxy : x = y
    · subst hxy
      simp [hy]
    · simp [hxy, Ne.symm hxy, List.mem_cons]

theorem count_subtract_list (l s : List String) (x : String) :
    (CustomerShoppingCart.subtract_list l s).count x = l.count x - s.count x := by
  unfold CustomerShoppingCart.subtract_list
  rw [count_flatten_replicate _ _ (List.nodup_dedup l)]
  by_cases hx : x ∈ l.dedup
  · simp [hx]
  · have hx' : x ∉ l := fun h => hx (List.mem_dedup.mpr h)
    simp [hx, List.count_eq_zero.mpr hx']

theorem mem_subtract_list (l s : List String) (x : String) :
    x ∈ CustomerShoppingCart.subtract_list l s ↔ s.count x < l.count x := by
  rw [← List.count_pos_iff, count_subtract_list]
  omega

theorem mem_extract_grouping (s c : List String) (x : String) :
    x ∈ extract_grouping s c ↔ x ∈ s ∧ x ∈ c := by
  unfold extract_grouping
  simp [List.mem_filter, List.mem_dedup]

theorem nodup_extract_grouping (s c : List String) : (extract_grouping s c).Nodup :=
  (List.nodup_dedup s).filter _

theorem count_extract_grouping (s c : List String) (x : String) (hx : x ∈ s) :
    (extract_grouping s c).count x = if x ∈ c then 1 else 0 := by
  by_cases hc : x ∈ c
  · rw [if_pos hc]
    exact List.count_eq_one_of_mem (nodup_extract_grouping s c)
      ((mem_extract_grouping s c x).mpr ⟨hx, hc⟩)
  · rw [if_neg hc]
    exact List.count_eq_zero.mpr (fun h => hc ((mem_extract_grouping s c x).mp h).2)

theorem count_subtract_extract (s c : List String) (x : String) (hx : x ∈ s) :
    (CustomerShoppingCart.subtract_list c (extract_grouping s c)).count x =
      c.count x - 1 := by
  rw [count_subtract_list, count_extract_grouping s c x hx]
  by_cases hc : x ∈ c
  · simp [hc]
  · have h0 : c.count x = 0 := List.count_eq_zero.mpr hc
    simp [hc, h0]

theorem split_rounds_congr (sIds : List String) (n : ℕ) :
    ∀ c1 c2, (∀ x ∈ sIds, c1.count x = c2.count x) →
      split_rounds sIds n c1 = split_rounds sIds n c2 := by
  induction n with
  | zero => intro c1 c2 _; rfl
  | succ n ih =>
    intro c1 c2 hcnt
    have hext : extract_grouping sIds c1 = extract_grouping sIds c2 := by
      unfold extract_grouping
      apply List.filter_congr
      intro x hx
      have hxs : x ∈ sIds := List.mem_dedup.mp hx
      have hc := hcnt x hxs
      by_cases h1 : x ∈ c1
      · have h2 : x ∈ c2 := by
          rw [← List.count_pos_iff] at h1 ⊢
          omega
        simp [h1, h2]
      · have h2 : x ∉ c2 := by
          rw [← List.count_pos_iff] at h1 ⊢
          omega
        simp [h1, h2]
    show (extract_grouping sIds c1) :: _ = (extract_grouping sIds c2) :: _
    rw [hext]
    congr 1
    apply ih
    intro x hx
    rw [count_subtract_list, count_subtract_list, hcnt x hx]

theorem le_foldl_max (g : String → ℕ) (l : List String) (acc : ℕ) :
    acc ≤ l.foldl (fun m y => max m (g y)) acc := by
  induction l generalizing acc with
  | nil => simp
  | cons y ys ih =>
    rw [List.foldl_cons]
    exact le_trans (le_max_left _ _) (ih (max acc (g y)))

theorem mem_le_foldl_max (g : String → ℕ) (l : List String) (x : String) (hx : x ∈ l) :
    ∀ acc, g x ≤ l.foldl (fun m y => max m (g y)) acc := by
  induction l with
  | nil => cases hx
  | cons y ys ih =>
    intro acc
    rw [List.foldl_cons]
    rcases List.mem_cons.mp hx with h | h
    · subst h
      exact le_trans (le_max_right _ _) (le_foldl_max g ys _)
    · exact ih h _

theorem count_le_max_count (c : List String) (x : String) :
    c.count x ≤ max_count_of_a_book c := by
  by_cases hx : x ∈ c
  · exact mem_le_foldl_max (fun y => c.count y) c x hx 0
  · rw [List.count_eq_zero.mpr hx]
    exact Nat.zero_le _

theorem mem_of_mem_split_rounds (sIds : List String) (n : ℕ) :
    ∀ c g x, g ∈ split_rounds sIds n c → x ∈ g → x ∈ sIds ∧ x ∈ c := by
  induction n with
  | zero => intro c g x hg; cases hg
  | succ n ih =>
    intro c g x hg hx
    rcases List.mem_cons.mp hg with h | h
    · subst h
      exact (mem_extract_grouping sIds c x).mp hx
    · obtain ⟨hs, hc⟩ := ih _ g x h hx
      refine ⟨hs, ?_⟩
      have := (mem_subtract_list _ _ x).mp hc
      rw [← List.count_pos_iff]
      omega

theorem nodup_of_mem_split_rounds (sIds : List String) (n : ℕ) :
    ∀ c g, g ∈ split_rounds sIds n c → g.Nodup := by
  induction n with
  | zero => intro c g hg; cases hg
  | succ n ih =>
    intro c g hg
    rcases List.mem_cons.mp hg with h | h
    · subst h
      exact nodup_extract_grouping _ _
    · exact ih _ g h

theorem split_rounds_of_count_zero (sIds : List String) (n : ℕ) :
    ∀ c, (∀ x ∈ sIds, c.count x = 0) →
      split_rounds sIds n c = List.replicate n [] := by
  induction n with
  | zero => intro c _; rfl
  | succ n ih =>
    intro c h
    have hext : extract_grouping sIds c = [] := by
      unfold extract_grouping
      rw [List.filter_eq_nil_iff]
      intro x hx
      have hxs : x ∈ sIds := List.mem_dedup.mp hx
      have h0 := h x hxs
      simp [List.count_eq_zero.mp h0]
    show (extract_grouping sIds c) :: _ = _
    rw [hext, List.replicate_succ]
    congr 1
    apply ih
    intro x hx
    rw [count_subtract_list]
    have h0 := h x hx
    omega

theorem extract_grouping_coe_le (sIds c : List String) :
    ((extract_grouping sIds c : List String) : Multiset String) ≤ (c : Multiset String) := by
  rw [Multiset.le_iff_count]
  intro a
  rw [Multiset.coe_count, Multiset.coe_count]
  by_cases ha : a ∈ extract_grouping sIds c
  · have h1 : (extract_grouping sIds c).count a = 1 :=
      List.count_eq_one_of_mem (nodup_extract_grouping _ _) ha
    have h2 : a ∈ c := ((mem_extract_grouping _ _ _).mp ha).2
    have h3 := List.count_pos_iff.mpr h2
    omega
  · rw [List.count_eq_zero.mpr ha]
    exact Nat.zero_le _

theorem subtract_list_coe (c e : List String) :
    ((CustomerShoppingCart.subtract_list c e : List String) : Multiset String) =
      (c : Multiset String) - (e : Multiset String) := by
  ext a
  rw [Multiset.count_sub, Multiset.coe_count, Multiset.coe_count, Multiset.coe_count,
    count_subtract_list]

/-- Per-round accounting: the grouped items across all rounds are exactly the
series-ISBN copies of the cart list, provided the number of rounds covers
every series ISBN's multiplicity. -/
theorem sum_lengths_split_rounds (sIds : List String) :
    ∀ (n : ℕ) (c : List String), (∀ x ∈ sIds, c.count x ≤ n) →
      ((split_rounds sIds n c).map List.length).sum =
        c.countP (fun x => decide (x ∈ sIds)) := by
  intro n
  induction n with
  | zero =>
    intro c h
    have h0 : c.countP (fun x => decide (x ∈ sIds)) = 0 := by
      rw [List.countP_eq_zero]
      intro a ha
      simp only [decide_eq_true_eq]
      intro has
      have h1 := h a has
      have h2 := List.count_pos_iff.mpr ha
      omega
    simpa [split_rounds] using h0.symm
  | succ n ih =>
    intro c h
    show (List.map List.length (extract_grouping sIds c ::
        split_rounds sIds n
          (CustomerShoppingCart.subtract_list c (extract_grouping sIds c)))).sum = _
    rw [List.map_cons, List.sum_cons,
      ih _ (fun x hx => by rw [count_subtract_extract sIds c x hx]; have := h x hx; omega)]
    have hle := extract_grouping_coe_le sIds c
    have hsub : (CustomerShoppingCart.subtract_list c
          (extract_grouping sIds c)).countP (fun x => decide (x ∈ sIds)) =
        c.countP (fun x => decide (x ∈ sIds)) -
          (extract_grouping sIds c).countP (fun x => decide (x ∈ sIds)) := by
    /- via the multiset view -/
      have hms := Multiset.countP_sub (p := fun x => x ∈ sIds) hle
      rw [← subtract_list_coe] at hms
      rw [Multiset.coe_countP, Multiset.coe_countP, Multiset.coe_countP] at hms
      exact hms
    have hmono : (extract_grouping sIds c).countP (fun x => decide (x ∈ sIds)) ≤
        c.countP (fun x => decide (x ∈ sIds)) := by
      have hms := Multiset.countP_le_of_le (p := fun x => x ∈ sIds) hle
      rw [Multiset.coe_countP, Multiset.coe_countP] at hms
      exact hms
    have hlen : (extract_grouping sIds c).countP (fun x => decide (x ∈ sIds)) =
        (extract_grouping sIds c).length :=
      List.countP_eq_length.mpr
        (fun a ha => by simp [((mem_extract_grouping _ _ _).mp ha).1])
    omega

/-- C5: for every cart and non-empty series, the partition loop fully
drains all series-ISBN copies — the number of items placed across all
groupings equals the number of series-ISBN copies in the cart's ISBN list
(which is also their number in the unknown-filtered cart, since
unknown-filtering removes only non-series ISBNs) — and each grouping holds
at most one copy of each series ISBN and no non-series ISBN. -/
theorem claim_C5_partition_drains (s0 : Book) (srest : List Book) (books : List Book) :
    (((split_rounds ((s0 :: srest).map Book.isbn)
          (max_count_of_a_book (books.map Book.isbn)) (books.map Book.isbn)).map
        List.length).sum =
      ((books.map Book.isbn).filter
          (fun x => decide (x ∈ (s0 :: srest).map Book.isbn))).length) ∧
    ∀ g ∈ split_rounds ((s0 :: srest).map Book.isbn)
        (max_count_of_a_book (books.map Book.isbn)) (books.map Book.isbn),
      g.Nodup ∧ ∀ x ∈ g, x ∈ (s0 :: srest).map Book.isbn := by
  constructor
  · rw [sum_lengths_split_rounds _ _ _ (fun x _ => count_le_max_count _ x),
      List.countP_eq_length_filter]
  · intro g hg
    exact ⟨nodup_of_mem_split_rounds _ _ _ g hg,
      fun x hx => (mem_of_mem_split_rounds _ _ _ g x hg hx).1⟩

/-! Lemmas about the dict, the pricing loop, and the branches of
`calculate_total_price`. -/

theorem dict_get_make (books : List Book) (x : String) :
    ∀ b, dict_get (books.map (fun b => (b.isbn, b))) x = some b →
      b.isbn = x ∧ b ∈ books := by
  induction books with
  | nil => intro b h; cases h
  | cons a rest ih =>
    intro b h
    simp only [List.map_cons, dict_get] at h
    cases hr : dict_get (rest.map (fun b => (b.isbn, b))) x with
    | some b0 =>
      rw [hr] at h
      cases h
      obtain ⟨h1, h2⟩ := ih b hr
      exact ⟨h1, List.mem_cons_of_mem a h2⟩
    | none =>
      rw [hr] at h
      by_cases ha : a.isbn = x
      · rw [if_pos ha] at h
        cases h
        exact ⟨ha, List.mem_cons_self a rest⟩
      · rw [if_neg ha] at h
        cases h

theorem dict_get_make_isSome (books : List Book) (x : String)
    (hx : x ∈ books.map Book.isbn) :
    ∃ b, dict_get (books.map (fun b => (b.isbn, b))) x = some b := by
  induction books with
  | nil => simp at hx
  | cons a rest ih =>
    simp only [List.map_cons, dict_get]
    cases hr : dict_get (rest.map (fun b => (b.isbn, b))) x with
    | some b => exact ⟨b, rfl⟩
    | none =>
      rcases List.mem_cons.mp hx with h | h
      · exact ⟨a, by rw [if_pos h.symm]⟩
      · obtain ⟨b, hb⟩ := ih h
        rw [hb] at hr
        cases hr

theorem lookup_books_congr (c1 c2 : CustomerShoppingCart) (g : List String)
    (hd : ∀ x ∈ g, c1.get_object_for_isbn x = c2.get_object_for_isbn x) :
    lookup_books c1 g = lookup_books c2 g := by
  induction g with
  | nil => rfl
  | cons i rest ih =>
    simp only [lookup_books]
    rw [hd i (List.mem_cons_self i rest),
      ih (fun x hx => hd x (List.mem_cons_of_mem i hx))]

theorem lookup_books_some (c : CustomerShoppingCart) (g : List String)
    (h : ∀ x ∈ g, ∃ b, c.get_object_for_isbn x = some b) :
    ∃ bs, lookup_books c g = some bs := by
  induction g with
  | nil => exact ⟨[], rfl⟩
  | cons i rest ih =>
    obtain ⟨b, hb⟩ := h i (List.mem_cons_self i rest)
    obtain ⟨bs, hbs⟩ := ih (fun x hx => h x (List.mem_cons_of_mem i hx))
    refine ⟨b :: bs, ?_⟩
    simp only [lookup_books]
    rw [hb, hbs]

theorem lookup_books_mem (c : CustomerShoppingCart) :
    ∀ (g : List String) (bs : List Book), lookup_books c g = some bs →
      ∀ b ∈ bs, ∃ x ∈ g, c.get_object_for_isbn x = some b := by
  intro g
  induction g with
  | nil =>
    intro bs h b hb
    cases h
    simp at hb
  | cons i rest ih =>
    intro bs h b hb
    simp only [lookup_books] at h
    cases h1 : c.get_object_for_isbn i with
    | none => rw [h1] at h; cases h
    | some b0 =>
      cases h2 : lookup_books c rest with
      | none => rw [h1, h2] at h; cases h
      | some bs0 =>
        rw [h1, h2] at h
        cases h
        rcases List.mem_cons.mp hb with hb | hb
        · subst hb
          exact ⟨i, List.mem_cons_self i rest, h1⟩
        · obtain ⟨x, hx, hgx⟩ := ih bs0 h2 b hb
          exact ⟨x, List.mem_cons_of_mem i hx, hgx⟩

theorem price_groupings_congr (c1 c2 : CustomerShoppingCart)
    (hp : c1.pricing = c2.pricing) :
    ∀ (gs : List (List String)) (a : ℚ),
      (∀ g ∈ gs, ∀ x ∈ g, c1.get_object_for_isbn x = c2.get_object_for_isbn x) →
      price_groupings c1 gs a = price_groupings c2 gs a := by
  intro gs
  induction gs with
  | nil => intro a _; rfl
  | cons g rest ih =>
    intro a hd
    simp only [price_groupings]
    rw [lookup_books_congr c1 c2 g (hd g (List.mem_cons_self g rest))]
    cases hb : lookup_books c2 g with
    | none => rfl
    | some bs =>
      unfold CustomerShoppingCart.calculate_discount
      rw [hp]
      cases c2.pricing with
      | none => rfl
      | some p =>
        exact ih _ (fun g hg => hd g (List.mem_cons_of_mem _ hg))

theorem price_groupings_replicate_nil (c : CustomerShoppingCart) (p : Pricing)
    (hp : c.pricing = some p) (n : ℕ) (a : ℚ) :
    price_groupings c (List.replicate n []) a = .ok a := by
  induction n with
  | zero => rfl
  | succ n ih =>
    rw [List.replicate_succ]
    simp only [price_groupings, lookup_books]
    unfold CustomerShoppingCart.calculate_discount
    rw [hp]
    simp only [Pricing.get_discount_percentage, List.length_nil, List.map_nil,
      List.sum_nil]
    norm_num
    exact ih

theorem price_groupings_ok (c : CustomerShoppingCart) (p : Pricing)
    (hp : c.pricing = some p) :
    ∀ (gs : List (List String)) (a : ℚ),
      (∀ g ∈ gs, ∀ x ∈ g, ∃ b, c.get_object_for_isbn x = some b) →
      ∃ t, price_groupings c gs a = .ok t := by
  intro gs
  induction gs with
  | nil => intro a _; exact ⟨a, rfl⟩
  | cons g rest ih =>
    intro a h
    obtain ⟨bs, hbs⟩ := lookup_books_some c g (h g (List.mem_cons_self g rest))
    simp only [price_groupings]
    rw [hbs]
    unfold CustomerShoppingCart.calculate_discount
    rw [hp]
    exact ih _ (fun g hg => h g (List.mem_cons_of_mem _ hg))

theorem price_split_stable (c : CustomerShoppingCart) (p : Pricing)
    (hp : c.pricing = some p) (sIds : List String) :
    ∀ (n m : ℕ) (cart : List String) (a : ℚ),
      (∀ x ∈ sIds, cart.count x ≤ n) → (∀ x ∈ sIds, cart.count x ≤ m) →
      price_groupings c (split_rounds sIds n cart) a =
        price_groupings c (split_rounds sIds m cart) a := by
  intro n
  induction n with
  | zero =>
    intro m cart a hn _
    have hz : ∀ x ∈ sIds, cart.count x = 0 := fun x hx => Nat.le_zero.mp (hn x hx)
    rw [split_rounds_of_count_zero sIds m cart hz,
      price_groupings_replicate_nil c p hp]
    rfl
  | succ n ih =>
    intro m cart a hn hm
    cases m with
    | zero =>
      have hz : ∀ x ∈ sIds, cart.count x = 0 := fun x hx => Nat.le_zero.mp (hm x hx)
      rw [split_rounds_of_count_zero sIds (n + 1) cart hz,
        price_groupings_replicate_nil c p hp]
      rfl
    | succ m =>
      simp only [split_rounds, price_groupings]
      cases hb : lookup_books c (extract_grouping sIds cart) with
      | none => rfl
      | some bs =>
        unfold CustomerShoppingCart.calculate_discount
        rw [hp]
        apply ih
        · intro x hx
          rw [count_subtract_extract sIds cart x hx]
          have := hn x hx
          omega
        · intro x hx
          rw [count_subtract_extract sIds cart x hx]
          have := hm x hx
          omega

theorem count_map_isbn_erase (l : List Book) (b : Book) (x : String)
    (hbx : b.isbn ≠ x) :
    ((l.erase b).map Book.isbn).count x = (l.map Book.isbn).count x := by
  induction l with
  | nil => rfl
  | cons a rest ih =>
    rw [List.erase_cons]
    by_cases hab : a = b
    · rw [if_pos (by simp [hab])]
      subst hab
      rw [List.map_cons, List.count_cons]
      simp [hbx]
    · rw [if_neg (by simp [hab])]
      rw [List.map_cons, List.map_cons, List.count_cons, List.count_cons, ih]

theorem count_map_isbn_foldl_erase (ub : List Book) :
    ∀ (l : List Book) (x : String), (∀ b ∈ ub, b.isbn ≠ x) →
      ((ub.foldl List.erase l).map Book.isbn).count x = (l.map Book.isbn).count x := by
  induction ub with
  | nil => intro l x _; rfl
  | cons b rest ih =>
    intro l x h
    rw [List.foldl_cons,
      ih (l.erase b) x (fun b0 hb0 => h b0 (List.mem_cons_of_mem b hb0)),
      count_map_isbn_erase l b x (h b (List.mem_cons_self b rest))]

theorem mem_foldl_erase (ub : List Book) :
    ∀ (l : List Book) (b : Book), b ∈ ub.foldl List.erase l → b ∈ l := by
  induction ub with
  | nil => intro l b h; exact h
  | cons a rest ih =>
    intro l b h
    rw [List.foldl_cons] at h
    exact List.mem_of_mem_erase (ih _ b h)

theorem mem_symmetric_difference (a b : List String) (x : String) :
    x ∈ symmetric_difference a b ↔ (x ∈ a ∧ x ∉ b) ∨ (x ∈ b ∧ x ∉ a) := by
  unfold symmetric_difference
  simp [List.mem_filter, List.mem_dedup, List.mem_append]

/-- Branch characterization: with a non-empty series set and the
symmetric-difference subset guard passing, `calculate_total_price` prices
the partition of the pre-removal ISBN list and removes the unknown
representatives from the stored cart. -/
theorem calculate_eq_of_subset (c : CustomerShoppingCart) (l : List Book)
    (ubooks : List Book) (t : ℚ)
    (hser : c.series_of_books = some l) (hl : l.length ≠ 0)
    (hpass : ∀ x ∈ symmetric_difference (c.books_in_cart.map Book.isbn) (l.map Book.isbn),
      x ∈ c.books_in_cart.map Book.isbn)
    (hub : lookup_books c
        (symmetric_difference (c.books_in_cart.map Book.isbn) (l.map Book.isbn)) =
      some ubooks)
    (hpr : price_groupings c
        (split_rounds (l.map Book.isbn)
          (max_count_of_a_book (c.books_in_cart.map Book.isbn))
          (c.books_in_cart.map Book.isbn)) 0 = .ok t) :
    c.calculate_total_price =
      .ok (t, ubooks.map (fun b => (b.title, b.isbn)),
           { c with books_in_cart := ubooks.foldl List.erase c.books_in_cart }) := by
  unfold CustomerShoppingCart.calculate_total_price
  rw [hser]
  dsimp only
  rw [if_pos hl, if_pos hpass, hub, hpr]

/-- Branch characterization: with a non-empty series set and the subset
guard failing, `calculate_total_price` prices the partition, emits no
diagnostic and leaves the state untouched. -/
theorem calculate_eq_of_not_subset (c : CustomerShoppingCart) (l : List Book) (t : ℚ)
    (hser : c.series_of_books = some l) (hl : l.length ≠ 0)
    (hfail : ¬ ∀ x ∈ symmetric_difference (c.books_in_cart.map Book.isbn) (l.map Book.isbn),
      x ∈ c.books_in_cart.map Book.isbn)
    (hpr : price_groupings c
        (split_rounds (l.map Book.isbn)
          (max_count_of_a_book (c.books_in_cart.map Book.isbn))
          (c.books_in_cart.map Book.isbn)) 0 = .ok t) :
    c.calculate_total_price = .ok (t, [], c) := by
  unfold CustomerShoppingCart.calculate_total_price
  rw [hser]
  dsimp only
  rw [if_pos hl, if_neg hfail, hpr]

/-- Branch characterization: with the series set to the empty list,
`calculate_total_price` returns the plain sum with no diagnostics and no
state change. -/
theorem calculate_eq_of_empty_series (c : CustomerShoppingCart)
    (hser : c.series_of_books = some []) :
    c.calculate_total_price = .ok ((c.books_in_cart.map Book.price).sum, [], c) := by
  unfold CustomerShoppingCart.calculate_total_price
  rw [hser]
  dsimp only
  rw [if_neg (by simp)]

/-- C7 amended: `calculate_total_price` leaves the cart's stored contents
unchanged provided the attached series is empty or every cart item's id
appears in the series (no unknown items).  When unknown items are present
and every series id appears in the cart, the code instead permanently
removes the unknown representatives from the stored cart (see the
counterexample). -/
theorem claim_C7_amended (series books : List Book) (c : CustomerShoppingCart)
    (hmk : CustomerShoppingCart.make (some books) = .ok c)
    (hin : series = [] ∨ ∀ b ∈ books, b.isbn ∈ series.map Book.isbn) :
    ∃ t d, (c.set_series_of_books (some series)).calculate_total_price =
      .ok (t, d, c.set_series_of_books (some series)) := by
  cases books with
  | nil => simp [CustomerShoppingCart.make] at hmk
  | cons b0 bs =>
    simp [CustomerShoppingCart.make] at hmk
    subst hmk
    rcases series with _ | ⟨s0, srest⟩
    · exact ⟨_, _, calculate_eq_of_empty_series _ rfl⟩
    · have hin' : ∀ b ∈ b0 :: bs, b.isbn ∈ (s0 :: srest).map Book.isbn := by
        rcases hin with h | h
        · cases h
        · exact h
      obtain ⟨t, hpr⟩ := price_groupings_ok
        (({ books_in_cart := b0 :: bs
            dict_books_in_cart := (b0 :: bs).map (fun bk => (bk.isbn, bk))
            series_of_books := none
            pricing := none } :
              CustomerShoppingCart).set_series_of_books (some (s0 :: srest)))
        (Pricing.make (some (s0 :: srest))) rfl
        (split_rounds ((s0 :: srest).map Book.isbn)
          (max_count_of_a_book ((b0 :: bs).map Book.isbn)) ((b0 :: bs).map Book.isbn)) 0
        (fun g hg x hx => dict_get_make_isSome (b0 :: bs) x
          (mem_of_mem_split_rounds _ _ _ g x hg hx).2)
      by_cases hpass : ∀ x ∈ symmetric_difference ((b0 :: bs).map Book.isbn)
          ((s0 :: srest).map Book.isbn), x ∈ (b0 :: bs).map Book.isbn
      · have hsd : symmetric_difference ((b0 :: bs).map Book.isbn)
            ((s0 :: srest).map Book.isbn) = [] := by
          rw [List.eq_nil_iff_forall_not_mem]
          intro x hx
          rcases (mem_symmetric_difference _ _ x).mp hx with ⟨hxc, hxn⟩ | ⟨hxs, hxn⟩
          · obtain ⟨b, hb, hbx⟩ := List.mem_map.mp hxc
            exact hxn (hbx ▸ hin' b hb)
          · exact hxn (hpass x hx)
        refine ⟨t, [], ?_⟩
        refine calculate_eq_of_subset _ (s0 :: srest) [] t rfl (by simp) hpass ?_ hpr
        show lookup_books _ (symmetric_difference ((b0 :: bs).map Book.isbn)
          ((s0 :: srest).map Book.isbn)) = some []
        rw [hsd]
        rfl
      · exact ⟨t, [],
          calculate_eq_of_not_subset _ (s0 :: srest) t rfl (by simp) hpass hpr⟩

/-- Witness for C7 amended: cart `[book1]` with series `[book1]`. -/
theorem claim_C7_amended_witness :
    ∃ t d, (cart_one.set_series_of_books (some [book1])).calculate_total_price =
      .ok (t, d, cart_one.set_series_of_books (some [book1])) :=
  claim_C7_amended [book1] [book1] cart_one (by rfl) (Or.inr (by decide))

/-- Core of C8: on any state whose dict keys cover the cart's ISBNs and map
each key to a book carrying that ISBN, a successful `calculate_total_price`
is followed by a second successful call on the resulting state with the
same total — the removal of unknown books never touches series-ISBN
copies, and extra or missing empty rounds price to zero. -/
theorem calculate_second_call (c0 : CustomerShoppingCart) (l : List Book)
    (hser : c0.series_of_books = some l)
    (hpri : l ≠ [] → c0.pricing = some (Pricing.make (some l)))
    (hdict : ∀ x b, dict_get c0.dict_books_in_cart x = some b → b.isbn = x)
    (hdom : ∀ x ∈ c0.books_in_cart.map Book.isbn,
      ∃ b, dict_get c0.dict_books_in_cart x = some b)
    (t1 : ℚ) (d1 : List (String × String)) (c1 : CustomerShoppingCart)
    (h1 : c0.calculate_total_price = .ok (t1, d1, c1)) :
    ∃ t2 d2 c2, c1.calculate_total_price = .ok (t2, d2, c2) ∧ t2 = t1 := by
  cases l with
  | nil =>
    rw [calculate_eq_of_empty_series c0 hser] at h1
    simp only [Except.ok.injEq, Prod.mk.injEq] at h1
    obtain ⟨rfl, rfl, rfl⟩ := h1
    exact ⟨_, _, _, calculate_eq_of_empty_series c0 hser, rfl⟩
  | cons s0 srest =>
    have hp : c0.pricing = some (Pricing.make (some (s0 :: srest))) := hpri (by simp)
    by_cases hpass : ∀ x ∈ symmetric_difference (c0.books_in_cart.map Book.isbn)
        ((s0 :: srest).map Book.isbn), x ∈ c0.books_in_cart.map Book.isbn
    · obtain ⟨ub, hub⟩ := lookup_books_some c0 _ (fun x hx => hdom x (hpass x hx))
      obtain ⟨t, hpr⟩ := price_groupings_ok c0 (Pricing.make (some (s0 :: srest))) hp
        (split_rounds ((s0 :: srest).map Book.isbn)
          (max_count_of_a_book (c0.books_in_cart.map Book.isbn))
          (c0.books_in_cart.map Book.isbn)) 0
        (fun g hg x hx => hdom x (mem_of_mem_split_rounds _ _ _ g x hg hx).2)
      rw [calculate_eq_of_subset c0 (s0 :: srest) ub t hser (by simp) hpass hub hpr] at h1
      simp only [Except.ok.injEq, Prod.mk.injEq] at h1
      obtain ⟨rfl, rfl, rfl⟩ := h1
      have hub_isbn : ∀ b ∈ ub, b.isbn ∉ (s0 :: srest).map Book.isbn := by
        intro b hb
        obtain ⟨x, hx, hgx⟩ := lookup_books_mem c0 _ ub hub b hb
        have hbx : b.isbn = x := hdict x b hgx
        rcases (mem_symmetric_difference _ _ x).mp hx with ⟨_, hxn⟩ | ⟨_, hxn⟩
        · rw [hbx]; exact hxn
        · exact absurd (hpass x hx) hxn
      have hcnt : ∀ x ∈ (s0 :: srest).map Book.isbn,
          ((ub.foldl List.erase c0.books_in_cart).map Book.isbn).count x =
            (c0.books_in_cart.map Book.isbn).count x :=
        fun x hx => count_map_isbn_foldl_erase ub c0.books_in_cart x
          (fun b hb hbx => hub_isbn b hb (hbx ▸ hx))
      have hprice2 : price_groupings
          ({ c0 with books_in_cart := ub.foldl List.erase c0.books_in_cart })
          (split_rounds ((s0 :: srest).map Book.isbn)
            (max_count_of_a_book ((ub.foldl List.erase c0.books_in_cart).map Book.isbn))
            ((ub.foldl List.erase c0.books_in_cart).map Book.isbn)) 0 = .ok t := by
        have e1 := price_groupings_congr
          ({ c0 with books_in_cart := ub.foldl List.erase c0.books_in_cart }) c0 rfl
          (split_rounds ((s0 :: srest).map Book.isbn)
            (max_count_of_a_book ((ub.foldl List.erase c0.books_in_cart).map Book.isbn))
            ((ub.foldl List.erase c0.books_in_cart).map Book.isbn)) 0
          (fun g _ x _ => rfl)
        have e2 := price_split_stable c0 (Pricing.make (some (s0 :: srest))) hp
          ((s0 :: srest).map Book.isbn)
          (max_count_of_a_book ((ub.foldl List.erase c0.books_in_cart).map Book.isbn))
          (max (max_count_of_a_book (c0.books_in_cart.map Book.isbn))
            (max_count_of_a_book ((ub.foldl List.erase c0.books_in_cart).map Book.isbn)))
          ((ub.foldl List.erase c0.books_in_cart).map Book.isbn) 0
          (fun x _ => count_le_max_count _ x)
          (fun x _ => le_trans (count_le_max_count _ x) (le_max_right _ _))
        have e3 := split_rounds_congr ((s0 :: srest).map Book.isbn)
          (max (max_count_of_a_book (c0.books_in_cart.map Book.isbn))
            (max_count_of_a_book ((ub.foldl List.erase c0.books_in_cart).map Book.isbn)))
          ((ub.foldl List.erase c0.books_in_cart).map Book.isbn)
          (c0.books_in_cart.map Book.isbn) hcnt
        have e4 := price_split_stable c0 (Pricing.make (some (s0 :: srest))) hp
          ((s0 :: srest).map Book.isbn)
          (max (max_count_of_a_book (c0.books_in_cart.map Book.isbn))
            (max_count_of_a_book ((ub.foldl List.erase c0.books_in_cart).map Book.isbn)))
          (max_count_of_a_book (c0.books_in_cart.map Book.isbn))
          (c0.books_in_cart.map Book.isbn) 0
          (fun x _ => le_trans (count_le_max_count _ x) (le_max_left _ _))
          (fun x _ => count_le_max_count _ x)
        rw [e1, e2, e3, e4, hpr]
      have hdom1 : ∀ x ∈ (ub.foldl List.erase c0.books_in_cart).map Book.isbn,
          ∃ b, dict_get c0.dict_books_in_cart x = some b := by
        intro x hx
        obtain ⟨b, hb, hbx⟩ := List.mem_map.mp hx
        exact hdom x (List.mem_map.mpr ⟨b, mem_foldl_erase ub _ b hb, hbx⟩)
      by_cases hpass2 : ∀ x ∈ symmetric_difference
          ((ub.foldl List.erase c0.books_in_cart).map Book.isbn)
          ((s0 :: srest).map Book.isbn),
          x ∈ (ub.foldl List.erase c0.books_in_cart).map Book.isbn
      · obtain ⟨ub2, hub2⟩ := lookup_books_some
          ({ c0 with books_in_cart := ub.foldl List.erase c0.books_in_cart }) _
          (fun x hx => hdom1 x (hpass2 x hx))
        exact ⟨t, _, _,
          calculate_eq_of_subset _ (s0 :: srest) ub2 t hser (by simp) hpass2 hub2 hprice2,
          rfl⟩
      · exact ⟨t, [], _,
          calculate_eq_of_not_subset _ (s0 :: srest) t hser (by simp) hpass2 hprice2,
          rfl⟩
    · obtain ⟨t, hpr⟩ := price_groupings_ok c0 (Pricing.make (some (s0 :: srest))) hp
        (split_rounds ((s0 :: srest).map Book.isbn)
          (max_count_of_a_book (c0.books_in_cart.map Book.isbn))
          (c0.books_in_cart.map Book.isbn)) 0
        (fun g hg x hx => hdom x (mem_of_mem_split_rounds _ _ _ g x hg hx).2)
      have hc := calculate_eq_of_not_subset c0 (s0 :: srest) t hser (by simp) hpass hpr
      rw [hc] at h1
      simp only [Except.ok.injEq, Prod.mk.injEq] at h1
      obtain ⟨rfl, rfl, rfl⟩ := h1
      exact ⟨t, [], c0, hc, rfl⟩

/-- C8: calling `calculate_total_price` twice in succession on the same
cart with the same series attached, with no intervening caller
modification, returns the same total both times (the first call's internal
removal of unknown books never changes the series-ISBN copies that the
total depends on). -/
theorem claim_C8_idempotent (books : List Book) (s : Option (List Book))
    (c : CustomerShoppingCart)
    (hmk : CustomerShoppingCart.make (some books) = .ok c)
    (t1 : ℚ) (d1 : List (String × String)) (c1 : CustomerShoppingCart)
    (h1 : (c.set_series_of_books s).calculate_total_price = .ok (t1, d1, c1)) :
    ∃ t2 d2 c2, c1.calculate_total_price = .ok (t2, d2, c2) ∧ t2 = t1 := by
  cases books with
  | nil => simp [CustomerShoppingCart.make] at hmk
  | cons b0 bs =>
    simp [CustomerShoppingCart.make] at hmk
    subst hmk
    cases s with
    | none =>
      exact calculate_second_call _ [] rfl (fun hne => absurd rfl hne)
        (fun x b h => (dict_get_make (b0 :: bs) x b h).1)
        (fun x hx => dict_get_make_isSome (b0 :: bs) x hx) t1 d1 c1 h1
    | some l =>
      exact calculate_second_call _ l rfl (fun _ => rfl)
        (fun x b h => (dict_get_make (b0 :: bs) x b h).1)
        (fun x hx => dict_get_make_isSome (b0 :: bs) x hx) t1 d1 c1 h1

/-- Witness for C8: cart `[book1]` with series `[book1]`; the first call
returns total 8, and the theorem yields a second call with the same
total. -/
theorem claim_C8_witness :
    ∃ t2 d2 c2, (cart_one.set_series_of_books (some [book1])).calculate_total_price =
      .ok (t2, d2, c2) ∧ t2 = 8 :=
  claim_C8_idempotent [book1] (some [book1]) cart_one (by rfl) 8 []
    (cart_one.set_series_of_books (some [book1])) (by with_unfolding_all rfl)

/-! Lemmas for the single-unknown-item analysis (claim C3). -/

theorem nodup_eq_singleton (l : List String) (a : String) (hnd : l.Nodup)
    (hmem : a ∈ l) (hall : ∀ x ∈ l, x = a) : l = [a] := by
  cases l with
  | nil => cases hmem
  | cons x xs =>
    have hx : x = a := hall x (List.mem_cons_self x xs)
    subst hx
    have hxs : xs = [] := by
      cases xs with
      | nil => rfl
      | cons y ys =>
        have hy : y = x := hall y (List.mem_cons_of_mem x (List.mem_cons_self y ys))
        rcases List.nodup_cons.mp hnd with ⟨hnx, _⟩
        exact absurd (hy ▸ List.mem_cons_self y ys) hnx
    rw [hxs]

theorem dict_get_eq_of_unique (books : List Book) (u : Book) (hu : u ∈ books)
    (huniq : ∀ b ∈ books, b.isbn = u.isbn → b = u) :
    dict_get (books.map (fun b => (b.isbn, b))) u.isbn = some u := by
  induction books with
  | nil => cases hu
  | cons a rest ih =>
    simp only [List.map_cons, dict_get]
    cases hr : dict_get (rest.map (fun b => (b.isbn, b))) u.isbn with
    | some b =>
      obtain ⟨hbx, hbm⟩ := dict_get_make rest u.isbn b hr
      rw [huniq b (List.mem_cons_of_mem a hbm) hbx]
    | none =>
      rcases List.mem_cons.mp hu with h | h
      · subst h
        rw [if_pos rfl]
      · obtain ⟨b, hb⟩ := dict_get_make_isSome rest u.isbn
          (List.mem_map.mpr ⟨u, h, rfl⟩)
        rw [hb] at hr
        cases hr

theorem dict_get_map_replace (books : List Book) (u u2 : Book) (x : String)
    (hx : x ≠ u.isbn) (hisbn : u2.isbn = u.isbn) :
    dict_get ((books.map (fun b => if b = u then u2 else b)).map
        (fun b => (b.isbn, b))) x =
      dict_get (books.map (fun b => (b.isbn, b))) x := by
  induction books with
  | nil => rfl
  | cons a rest ih =>
    simp only [List.map_cons, dict_get, ih]
    cases hr : dict_get (rest.map (fun b => (b.isbn, b))) x with
    | some b => rfl
    | none =>
      by_cases ha : a = u
      · rw [if_pos ha]
        rw [if_neg (by rw [hisbn]; exact fun h => hx h.symm),
          if_neg (by rw [ha]; exact fun h => hx h.symm)]
      · rw [if_neg ha]

/-- Analysis of `calculate_total_price` on a cart that contains exactly
one item unknown to the non-empty series: the priced total is the
partition total (which never includes the unknown ISBN), and the
diagnostic list is `[(u.title, u.isbn)]` exactly when every series ISBN
occurs in the cart, and `[]` otherwise. -/
theorem calc_single_unknown (books series : List Book) (u : Book)
    (hu : u ∈ books) (hs : series ≠ [])
    (hunk : u.isbn ∉ series.map Book.isbn)
    (hknown : ∀ b ∈ books, b.isbn ∉ series.map Book.isbn → b = u)
    (t : ℚ)
    (hpr : price_groupings
        { books_in_cart := books
          dict_books_in_cart := books.map (fun b => (b.isbn, b))
          series_of_books := some series
          pricing := some (Pricing.make (some series)) }
        (split_rounds (series.map Book.isbn)
          (max_count_of_a_book (books.map Book.isbn)) (books.map Book.isbn)) 0 =
      .ok t) :
    ∃ st, ({ books_in_cart := books
             dict_books_in_cart := books.map (fun b => (b.isbn, b))
             series_of_books := some series
             pricing := some (Pricing.make (some series)) } :
          CustomerShoppingCart).calculate_total_price =
      .ok (t, (if ∀ s ∈ series.map Book.isbn, s ∈ books.map Book.isbn
               then [(u.title, u.isbn)] else []), st) := by
  cases series with
  | nil => exact absurd rfl hs
  | cons s0 srest =>
    have hmemu : u.isbn ∈ books.map Book.isbn := List.mem_map.mpr ⟨u, hu, rfl⟩
    have hcart_only : (books.map Book.isbn).dedup.filter
        (fun x => decide (x ∉ (s0 :: srest).map Book.isbn)) = [u.isbn] := by
      apply nodup_eq_singleton
      · exact (List.nodup_dedup _).filter _
      · rw [List.mem_filter]
        exact ⟨List.mem_dedup.mpr hmemu, by simpa using hunk⟩
      · intro x hx
        rcases List.mem_filter.mp hx with ⟨hx1, hx2⟩
        obtain ⟨b, hb, hbx⟩ := List.mem_map.mp (List.mem_dedup.mp hx1)
        have hbu : b = u := hknown b hb (by rw [hbx]; simpa using hx2)
        rw [← hbx, hbu]
    have hsymm : symmetric_difference (books.map Book.isbn)
        ((s0 :: srest).map Book.isbn) =
        u.isbn :: ((s0 :: srest).map Book.isbn).dedup.filter
          (fun x => decide (x ∉ books.map Book.isbn)) := by
      unfold symmetric_difference
      rw [hcart_only]
      rfl
    by_cases hall : ∀ s ∈ (s0 :: srest).map Book.isbn, s ∈ books.map Book.isbn
    · have hA : ((s0 :: srest).map Book.isbn).dedup.filter
          (fun x => decide (x ∉ books.map Book.isbn)) = [] := by
        rw [List.filter_eq_nil_iff]
        intro x hx
        have := hall x (List.mem_dedup.mp hx)
        simp [this]
      have hpass : ∀ x ∈ symmetric_difference (books.map Book.isbn)
          ((s0 :: srest).map Book.isbn), x ∈ books.map Book.isbn := by
        rw [hsymm, hA]
        intro x hx
        rcases List.mem_cons.mp hx with h | h
        · rw [h]; exact hmemu
        · cases h
      have hgetu : dict_get (books.map (fun b => (b.isbn, b))) u.isbn = some u :=
        dict_get_eq_of_unique books u hu
          (fun b hb hbx => hknown b hb (hbx ▸ hunk))
      have hlook : lookup_books
          { books_in_cart := books
            dict_books_in_cart := books.map (fun b => (b.isbn, b))
            series_of_books := some (s0 :: srest)
            pricing := some (Pricing.make (some (s0 :: srest))) }
          (symmetric_difference (books.map Book.isbn)
            ((s0 :: srest).map Book.isbn)) = some [u] := by
        rw [hsymm, hA]
        simp only [lookup_books]
        show (match dict_get (books.map (fun b => (b.isbn, b))) u.isbn,
            (some [] : Option (List Book)) with
          | some b, some bs => some (b :: bs)
          | _, _ => none) = some [u]
        rw [hgetu]
      rw [if_pos hall]
      exact ⟨_, calculate_eq_of_subset _ (s0 :: srest) [u] t rfl (by simp)
        hpass hlook hpr⟩
    · have hfail : ¬ ∀ x ∈ symmetric_difference (books.map Book.isbn)
          ((s0 :: srest).map Book.isbn), x ∈ books.map Book.isbn := by
        intro hp
        apply hall
        intro s hsmem
        by_cases hsc : s ∈ books.map Book.isbn
        · exact hsc
        · exact absurd
            (hp s ((mem_symmetric_difference _ _ s).mpr (Or.inr ⟨hsmem, hsc⟩))) hsc
      rw [if_neg hall]
      exact ⟨_, calculate_eq_of_not_subset _ (s0 :: srest) t rfl (by simp) hfail hpr⟩

theorem make_some_inv (books : List Book) (c : CustomerShoppingCart)
    (h : CustomerShoppingCart.make (some books) = .ok c) :
    c = { books_in_cart := books
          dict_books_in_cart := books.map (fun b => (b.isbn, b))
          series_of_books := none
          pricing := none } := by
  unfold CustomerShoppingCart.make at h
  dsimp only at h
  by_cases hb : books.length ≠ 0
  · rw [if_pos hb] at h
    injection h with h
    exact h.symm
  · rw [if_neg hb] at h
    cases h

/-- C3 amended: for every cart containing exactly one item `u` whose id is
absent from the non-empty attached series, the item's price is excluded
from the returned total (the total is invariant under replacing `u`'s
price by any value `q`), and the diagnostic naming `u` (title and id) is
emitted exactly when every series id also appears in the cart — the
sub-case in which the symmetric difference of the two id sets coincides
with its intersection with the cart ids; otherwise the subset guard fails
and no diagnostic at all is emitted. -/
theorem claim_C3_amended (books series : List Book) (u : Book)
    (c : CustomerShoppingCart) (q : ℚ)
    (hmk : CustomerShoppingCart.make (some books) = .ok c)
    (hs : series ≠ [])
    (hu : u ∈ books)
    (hcount : books.count u = 1)
    (hunk : u.isbn ∉ series.map Book.isbn)
    (hknown : ∀ b ∈ books, b.isbn ∉ series.map Book.isbn → b = u) :
    ∃ t st, (c.set_series_of_books (some series)).calculate_total_price =
        .ok (t, (if ∀ s ∈ series.map Book.isbn, s ∈ books.map Book.isbn
                 then [(u.title, u.isbn)] else []), st) ∧
      ∀ c2, CustomerShoppingCart.make
          (some (books.map (fun b => if b = u then { u with price := q } else b))) =
            .ok c2 →
        ∃ st2, (c2.set_series_of_books (some series)).calculate_total_price =
          .ok (t, (if ∀ s ∈ series.map Book.isbn, s ∈ books.map Book.isbn
                   then [(u.title, u.isbn)] else []), st2) := by
  have hc := make_some_inv books c hmk
  subst hc
  obtain ⟨t, hpr⟩ := price_groupings_ok
    { books_in_cart := books
      dict_books_in_cart := books.map (fun b => (b.isbn, b))
      series_of_books := some series
      pricing := some (Pricing.make (some series)) }
    (Pricing.make (some series)) rfl
    (split_rounds (series.map Book.isbn)
      (max_count_of_a_book (books.map Book.isbn)) (books.map Book.isbn)) 0
    (fun g hg x hx => dict_get_make_isSome books x
      (mem_of_mem_split_rounds _ _ _ g x hg hx).2)
  obtain ⟨st, hcalc⟩ := calc_single_unknown books series u hu hs hunk hknown t hpr
  refine ⟨t, st, hcalc, ?_⟩
  intro c2 hmk2
  have hc2 := make_some_inv _ c2 hmk2
  subst hc2
  have hisbn_eq : (books.map (fun b => if b = u then { u with price := q } else b)).map
      Book.isbn = books.map Book.isbn := by
    rw [List.map_map]
    apply List.map_congr_left
    intro b _
    by_cases hb : b = u
    · subst hb
      simp
    · simp [hb]
  have hknown2 : ∀ b ∈ books.map (fun b => if b = u then { u with price := q } else b),
      b.isbn ∉ series.map Book.isbn → b = { u with price := q } := by
    intro b hb hbn
    obtain ⟨b1, hb1, hbeq⟩ := List.mem_map.mp hb
    by_cases h1 : b1 = u
    · rw [if_pos h1] at hbeq
      exact hbeq.symm
    · rw [if_neg h1] at hbeq
      subst hbeq
      exact absurd (hknown b1 hb1 hbn) h1
  have hu2 : ({ u with price := q } : Book) ∈
      books.map (fun b => if b = u then { u with price := q } else b) :=
    List.mem_map.mpr ⟨u, hu, by rw [if_pos rfl]⟩
  have hpoint : ∀ g ∈ split_rounds (series.map Book.isbn)
      (max_count_of_a_book (books.map Book.isbn)) (books.map Book.isbn),
      ∀ x ∈ g,
        dict_get ((books.map (fun b => if b = u then { u with price := q } else b)).map
          (fun b => (b.isbn, b))) x =
        dict_get (books.map (fun b => (b.isbn, b))) x := by
    intro g hg x hx
    have hxs := (mem_of_mem_split_rounds _ _ _ g x hg hx).1
    exact dict_get_map_replace books u _ x (fun he => hunk (he ▸ hxs)) rfl
  have hpr2 : price_groupings
      { books_in_cart := books.map (fun b => if b = u then { u with price := q } else b)
        dict_books_in_cart :=
          (books.map (fun b => if b = u then { u with price := q } else b)).map
            (fun b => (b.isbn, b))
        series_of_books := some series
        pricing := some (Pricing.make (some series)) }
      (split_rounds (series.map Book.isbn)
        (max_count_of_a_book
          ((books.map (fun b => if b = u then { u with price := q } else b)).map Book.isbn))
        ((books.map (fun b => if b = u then { u with price := q } else b)).map Book.isbn))
      0 = .ok t := by
    rw [hisbn_eq]
    rw [price_groupings_congr
      { books_in_cart := books.map (fun b => if b = u then { u with price := q } else b)
        dict_books_in_cart :=
          (books.map (fun b => if b = u then { u with price := q } else b)).map
            (fun b => (b.isbn, b))
        series_of_books := some series
        pricing := some (Pricing.make (some series)) }
      { books_in_cart := books
        dict_books_in_cart := books.map (fun b => (b.isbn, b))
        series_of_books := some series
        pricing := some (Pricing.make (some series)) } rfl
      (split_rounds (series.map Book.isbn)
        (max_count_of_a_book (books.map Book.isbn)) (books.map Book.isbn)) 0
      (fun g hg x hx => hpoint g hg x hx)]
    exact hpr
  obtain ⟨st2, hcalc2⟩ := calc_single_unknown
    (books.map (fun b => if b = u then { u with price := q } else b)) series
    { u with price := q } hu2 hs hunk hknown2 t hpr2
  rw [hisbn_eq] at hcalc2
  exact ⟨st2, hcalc2⟩

/-- A cart holding `[book1, book9]`, as built by the constructor. -/
def cart_two : CustomerShoppingCart :=
  { books_in_cart := [book1, book9]
    dict_books_in_cart := [(book1.isbn, book1), (book9.isbn, book9)]
    series_of_books := none
    pricing := none }

/-- Witness for C3 amended: cart `[book1, book9]`, series `[book1]`,
unknown item `book9`, replacement price 5. -/
theorem claim_C3_amended_witness :
    ∃ t st, (cart_two.set_series_of_books (some [book1])).calculate_total_price =
        .ok (t, (if ∀ s ∈ [book1].map Book.isbn, s ∈ [book1, book9].map Book.isbn
                 then [(book9.title, book9.isbn)] else []), st) ∧
      ∀ c2, CustomerShoppingCart.make
          (some ([book1, book9].map
            (fun b => if b = book9 then { book9 with price := 5 } else b))) = .ok c2 →
        ∃ st2, (c2.set_series_of_books (some [book1])).calculate_total_price =
          .ok (t, (if ∀ s ∈ [book1].map Book.isbn, s ∈ [book1, book9].map Book.isbn
                   then [(book9.title, book9.isbn)] else []), st2) :=
  claim_C3_amended [book1, book9] [book1] book9 cart_two 5 (by rfl) (by simp)
    (by decide) (by decide) (by decide) (by decide)
